import Mathlib

namespace MealPipeline

/-- Association-list dictionary with Python dict semantics: assignment updates an
existing key in place (keeping its position) or appends a new one. -/
def alSet {α : Type} : List (String × α) → String → α → List (String × α)
  | [], k, v => [(k, v)]
  | (k0, v0) :: tl, k, v => if k0 = k then (k0, v) :: tl else (k0, v0) :: alSet tl k v

/-- Dictionary lookup, first matching key. -/
def alLookup {α : Type} : List (String × α) → String → Option α
  | [], _ => none
  | (k0, v0) :: tl, k => if k0 = k then some v0 else alLookup tl k

/-- The key list of a dictionary, in insertion order. -/
def alKeys {α : Type} (l : List (String × α)) : List String := l.map Prod.fst

theorem alLookup_alSet_self {α : Type} (l : List (String × α)) (k : String) (v : α) :
    alLookup (alSet l k v) k = some v := by
  induction l with
  | nil => simp [alSet, alLookup]
  | cons hd tl ih =>
    obtain ⟨k0, v0⟩ := hd
    by_cases h : k0 = k <;> simp [alSet, alLookup, h, ih]

theorem alLookup_alSet_ne {α : Type} (l : List (String × α)) (k k2 : String) (v : α)
    (h : k ≠ k2) : alLookup (alSet l k v) k2 = alLookup l k2 := by
  induction l with
  | nil => simp [alSet, alLookup, fun hh => h hh]
  | cons hd tl ih =>
    obtain ⟨k0, v0⟩ := hd
    by_cases h0 : k0 = k
    · subst h0
      simp [alSet, alLookup, h]
    · simp [alSet, alLookup, h0, ih]

theorem alKeys_alSet_mem {α : Type} (l : List (String × α)) (k : String) (v : α)
    (h : k ∈ alKeys l) : alKeys (alSet l k v) = alKeys l := by
  induction l with
  | nil => simp [alKeys] at h
  | cons hd tl ih =>
    obtain ⟨k0, v0⟩ := hd
    by_cases h0 : k0 = k
    · simp [alSet, alKeys, h0]
    · have h2 : k ∈ alKeys tl := by
        simp [alKeys] at h ⊢
        rcases h with h | h
        · exact absurd h.symm h0
        · exact h
      have h3 := ih h2
      simp [alSet, alKeys, h0]
      simpa [alKeys] using h3

/-- Python substring test: `sub in s`. -/
def pyIn (sub s : String) : Bool := decide (sub.data <:+: s.data)

/-- A decoded JSON value, as produced by `json.loads`. Numbers are modelled as
exact rationals. -/
inductive Json where
  | null : Json
  | bool : Bool → Json
  | num : ℚ → Json
  | str : String → Json
  | arr : List Json → Json
  | obj : List (String × Json) → Json

/-- Python exceptions that the embedded code can raise to its caller. -/
inductive PyErr where
  | attributeError : PyErr
  | typeError : PyErr
  | keyError : PyErr
  deriving DecidableEq

/-- Python truthiness of a decoded JSON value: `None`, `False`, `0`, `""`, `[]`
and an empty dict are falsy. -/
def Json.isTruthy : Json → Bool
  | .null => false
  | .bool b => b
  | .num q => if q = 0 then false else true
  | .str s => if s = "" then false else true
  | .arr l => !l.isEmpty
  | .obj l => !l.isEmpty

/-- Whether the value is a JSON object (a Python dict). -/
def Json.isObj : Json → Bool
  | .obj _ => true
  | _ => false

/-- Python `for item in v`: lists yield their elements, strings their
one-character substrings, dicts their keys; other values raise `TypeError`. -/
def Json.iterElems : Json → Except PyErr (List Json)
  | .arr xs => .ok xs
  | .str s => .ok (s.data.map fun c => Json.str (String.mk [c]))
  | .obj kvs => .ok (kvs.map fun kv => Json.str kv.fst)
  | _ => .error .typeError

/-- Python `item.get(k, dflt)`: defined on dicts, `AttributeError` otherwise. -/
def pyGet (item : Json) (k : String) (dflt : Json) : Except PyErr Json :=
  match item with
  | .obj kvs => .ok ((alLookup kvs k).getD dflt)
  | _ => .error .attributeError

/-- JSON whitespace, as accepted by `json.loads`. -/
def skipWs : List Char → List Char
  | [] => []
  | c :: cs => if c = ' ' ∨ c = '\t' ∨ c = '\n' ∨ c = '\r' then skipWs cs else c :: cs

/-- Body of a JSON string after the opening quote, handling the short escapes;
rejects raw control characters, as `json.loads` does in strict mode. -/
def parseStrBody : List Char → List Char → Option (String × List Char)
  | _, [] => none
  | acc, c :: cs =>
    if c = '"' then some (String.mk acc.reverse, cs)
    else if c = '\\' then
      match cs with
      | [] => none
      | e :: cs2 =>
        if e = '"' then parseStrBody ('"' :: acc) cs2
        else if e = '\\' then parseStrBody ('\\' :: acc) cs2
        else if e = '/' then parseStrBody ('/' :: acc) cs2
        else if e = 'b' then parseStrBody (Char.ofNat 8 :: acc) cs2
        else if e = 'f' then parseStrBody (Char.ofNat 12 :: acc) cs2
        else if e = 'n' then parseStrBody ('\n' :: acc) cs2
        else if e = 'r' then parseStrBody ('\r' :: acc) cs2
        else if e = 't' then parseStrBody ('\t' :: acc) cs2
        else none
    else if c.toNat < 32 then none
    else parseStrBody (c :: acc) cs

/-- Numeric value of a digit list. -/
def digitsVal (ds : List Char) : Nat := ds.foldl (fun n c => n * 10 + (c.toNat - 48)) 0

/-- Optional exponent part of a JSON number, then the finished value. -/
def parseExpPart (neg : Bool) (base : ℚ) (cs : List Char) : Option (Json × List Char) :=
  let signed : ℚ := if neg then -base else base
  match cs with
  | c :: r =>
    if c = 'e' ∨ c = 'E' then
      let sr : ℤ × List Char :=
        match r with
        | '+' :: rr => (1, rr)
        | '-' :: rr => (-1, rr)
        | _ => (1, r)
      let es := sr.2.takeWhile Char.isDigit
      let r2 := sr.2.dropWhile Char.isDigit
      if es.isEmpty then none
      else some (Json.num (signed * (10 : ℚ) ^ (sr.1 * (digitsVal es : ℤ))), r2)
    else some (Json.num signed, cs)
  | [] => some (Json.num signed, cs)

/-- A JSON number: optional minus, integer part without leading zeros, optional
fraction and exponent. -/
def parseNum (cs : List Char) : Option (Json × List Char) :=
  let sgn : Bool × List Char := match cs with
    | '-' :: r => (true, r)
    | _ => (false, cs)
  match sgn.2 with
  | [] => none
  | c :: _ =>
    if !c.isDigit then none
    else
      let ds := sgn.2.takeWhile Char.isDigit
      let r1 := sgn.2.dropWhile Char.isDigit
      if ds.length > 1 && ds.headD '1' = '0' then none
      else
        match r1 with
        | '.' :: r =>
          let fs := r.takeWhile Char.isDigit
          let r2 := r.dropWhile Char.isDigit
          if fs.isEmpty then none
          else
            parseExpPart sgn.1
              ((digitsVal ds : ℚ) + (digitsVal fs : ℚ) / (10 : ℚ) ^ fs.length) r2
        | _ => parseExpPart sgn.1 (digitsVal ds : ℚ) r1

mutual

/-- One JSON value, fuel-indexed. -/
def parseVal : Nat → List Char → Option (Json × List Char)
  | 0, _ => none
  | fu + 1, cs =>
    match skipWs cs with
    | [] => none
    | c :: rest =>
      if c = '"' then
        match parseStrBody [] rest with
        | some (s, r) => some (Json.str s, r)
        | none => none
      else if c = '[' then
        match skipWs rest with
        | ']' :: r2 => some (Json.arr [], r2)
        | r1 => parseElems fu r1 []
      else if c = Char.ofNat 123 then
        match skipWs rest with
        | [] => none
        | d :: r2 => if d = Char.ofNat 125 then some (Json.obj [], r2)
                     else parseMembers fu (d :: r2) []
      else if c = 't' then
        match rest with
        | 'r' :: 'u' :: 'e' :: r => some (Json.bool true, r)
        | _ => none
      else if c = 'f' then
        match rest with
        | 'a' :: 'l' :: 's' :: 'e' :: r => some (Json.bool false, r)
        | _ => none
      else if c = 'n' then
        match rest with
        | 'u' :: 'l' :: 'l' :: r => some (Json.null, r)
        | _ => none
      else parseNum (c :: rest)

/-- Array elements after the first opening bracket, fuel-indexed. -/
def parseElems : Nat → List Char → List Json → Option (Json × List Char)
  | 0, _, _ => none
  | fu + 1, cs, acc =>
    match parseVal fu cs with
    | none => none
    | some (v, r) =>
      match skipWs r with
      | ',' :: r2 => parseElems fu r2 (v :: acc)
      | ']' :: r2 => some (Json.arr (v :: acc).reverse, r2)
      | _ => none

/-- Object members after the opening brace, fuel-indexed; duplicate keys
overwrite, as a Python dict does. -/
def parseMembers : Nat → List Char → List (String × Json) → Option (Json × List Char)
  | 0, _, _ => none
  | fu + 1, cs, acc =>
    match skipWs cs with
    | '"' :: r =>
      match parseStrBody [] r with
      | none => none
      | some (k, r1) =>
        match skipWs r1 with
        | ':' :: r2 =>
          match parseVal fu r2 with
          | none => none
          | some (v, r3) =>
            match skipWs r3 with
            | ',' :: r4 => parseMembers fu r4 (alSet acc k v)
            | d :: r4 =>
              if d = Char.ofNat 125 then some (Json.obj (alSet acc k v), r4) else none
            | _ => none
        | _ => none
    | _ => none

end

/-- `json.loads`: a single JSON value, surrounded only by whitespace. -/
def jsonParse (s : String) : Option Json :=
  match parseVal (3 * s.length + 16) s.data with
  | some (v, rest) => if (skipWs rest).isEmpty then some v else none
  | none => none

/-- Core of Python `str.split(sep)` for a non-empty separator `s0 :: srest`:
the pieces between non-overlapping occurrences, scanning left to right. The
fuel only bounds the recursion; every step consumes at least one character, so
a fuel of one more than the input length is never exhausted. -/
def splitCore : Nat → Char → List Char → List Char → List Char → List (List Char)
  | 0, _, _, _, acc => [acc.reverse]
  | fu + 1, s0, srest, l, acc =>
    match l with
    | [] => [acc.reverse]
    | c :: cs =>
      if c = s0 ∧ srest.isPrefixOf cs then
        acc.reverse :: splitCore fu s0 srest (cs.drop srest.length) []
      else splitCore fu s0 srest cs (c :: acc)

/-- Python `str.split(sep)` (the empty-separator case raises in Python and is
never used here). -/
def pySplit (sep s : String) : List String :=
  match sep.data with
  | [] => [s]
  | s0 :: srest => (splitCore (s.length + 1) s0 srest s.data []).map String.mk

/-- The whitespace set of Python `str.strip()` (ASCII part). -/
def pyWs (c : Char) : Bool :=
  c = ' ' || c = '\t' || c = '\n' || c = '\r' || c = Char.ofNat 11 || c = Char.ofNat 12

/-- Python `str.strip()`. -/
def pyStrip (s : String) : String :=
  String.mk (((s.data.dropWhile pyWs).reverse.dropWhile pyWs).reverse)

/-- The markdown-fence stripping of `parse_food_amount` (main.py lines 47-51):
if the response contains a fenced json block, take the text after the first
occurrence of three backticks followed by the tag json, up to the next fence,
and strip it; otherwise, if it contains a fence at all, take the text between
the first two fences and strip it; otherwise use the raw text. The index-1
accesses cannot fail under the guards, so the `getD` defaults are unreachable. -/
def extractContent (content : String) : String :=
  if pyIn "```json" content then
    pyStrip ((pySplit "```" ((pySplit "```json" content).getD 1 "")).headD "")
  else if pyIn "```" content then
    pyStrip ((pySplit "```" ((pySplit "```" content).getD 1 "")).headD "")
  else content

/-- Modelled from the spec, for the refinement comparison only: the content of
the first fenced code block of the response, excluding the language-tag line
when one is present (the text of the fence line after the backticks), trimmed. -/
def specFirstFencedBlockContent (content : String) : String :=
  let inner := (pySplit "```" content).getD 1 ""
  let ls := pySplit "\n" inner
  if ls.length ≤ 1 then pyStrip inner else pyStrip (String.intercalate "\n" ls.tail)

/-- The instruction prompt of `parse_food_amount` (main.py lines 27-40),
with the user text embedded. -/
def parsePrompt (user_input : String) : String :=
  "\n    You are a nutrition assistant that extracts food items and their quantities from text.\n    Follow these rules:\n    1. Identify all distinct food items in: \"" ++
  user_input ++
  "\"\n    2. Standardize names to match USDA database (e.g., \x27scrambled eggs\x27 → \x27egg, whole, raw\x27)\n    3. Estimate portions for vague descriptions:\n       - \x27a bowl\x27 → \x271 bowl (250 g)\x27\n       - \x27a few slices\x27 → \x273 slices (30 g)\x27\n       - \x27medium serving\x27 → \x271 medium serving (117 g)\x27\n    4. Return ONLY a JSON array with format: [\x7b\"food\": \"standardized name\", \"amount\": \"estimated quantity\"\x7d]\n    \n    Example input: \"I had 2 scrambled eggs and a cup of coffee\"\n    Example output: [\x7b\"food\": \"egg, whole, raw\", \"amount\": \"2 large (100 g)\"\x7d, \x7b\"food\": \"coffee, brewed\", \"amount\": \"1 cup (240 ml)\"\x7d]\n    "

/-- `parse_food_amount`: invokes the text-generation service on the parse
prompt and decodes the response. `llm` models `llm.invoke` at this call site,
returning the response content, or `none` when the call raises; every failure
path (invoke exception, JSON decode error) yields the empty list. A successful
decode is returned unchanged, whatever its shape. -/
def parse_food_amount (llm : String → Option String) (user_input : String) : Json :=
  match llm (parsePrompt user_input) with
  | none => Json.arr []
  | some content =>
    match jsonParse (extractContent content) with
    | some v => v
    | none => Json.arr []

/-- A nutrient record of the food-database response: each entry of
`foodNutrients`, with the fields `extract_nutrients` reads; a missing field
makes the corresponding `.get` default apply. -/
structure FoodNutrient where
  nutrientName : Option String
  value : Option ℚ
  unitName : Option String
  deriving DecidableEq

/-- A candidate record of the food-database search response: the fields the
program reads (`score` for ranking, `foodNutrients` for extraction, with the
`.get` defaults when missing). -/
structure Candidate where
  description : String
  score : Option ℚ
  foodNutrients : List FoodNutrient
  deriving DecidableEq

/-- The decoded body of the search response: the optional `foods` list. -/
structure SearchBody where
  foods : Option (List Candidate)
  deriving DecidableEq

/-- The outcome of the HTTP GET in `query_usda`, as delivered to the code:
either the request raised (network/timeout failure), or a response arrived
with a status code and a body that may or may not decode as JSON. -/
inductive UsdaOutcome where
  | netFail : UsdaOutcome
  | resp (status : Nat) (body : Option SearchBody)
  deriving DecidableEq

/-- `x.get("score", 0)`. -/
def scoreOf (c : Candidate) : ℚ := c.score.getD 0

/-- Python `max(foods, key=lambda x: x.get("score", 0))`: scans left to right,
replacing the current best only on a strictly greater score, so the first
of several maxima wins. -/
def maxByScore (best : Candidate) : List Candidate → Candidate
  | [] => best
  | x :: xs => maxByScore (if scoreOf best < scoreOf x then x else best) xs

/-- `query_usda` (main.py lines 61-94): a raised request (network/timeout), an
HTTP-error status (`raise_for_status` raises exactly on the client-error and
server-error ranges, 400-599), an undecodable body, or a missing or empty
`foods` list all yield the empty result; otherwise the best-scoring candidate
is returned. -/
def query_usda (o : UsdaOutcome) : Option Candidate :=
  match o with
  | .netFail => none
  | .resp status body =>
    if 400 ≤ status ∧ status < 600 then none
    else
      match body with
      | none => none
      | some data =>
        match data.foods with
        | none => none
        | some [] => none
        | some (c :: cs) => some (maxByScore c cs)

/-- Python `str.lower()` (the names and units here are ASCII). -/
def pyLower (s : String) : String := String.mk (s.data.map Char.toLower)

/-- The fixed nutrient keys, in the order of the `elif` chain of
`extract_nutrients`, which is also the insertion order of the totals dict. -/
def keyOrder : List String :=
  ["calories", "protein", "fat", "carbohydrates", "fiber", "sugars", "saturated_fat", "sodium"]

/-- The `if/elif` chain of `extract_nutrients` (main.py lines 105-120) on one
nutrient entry: the key the entry is assigned to, or `none` when no branch
matches. `name` and `unit` are the lower-cased `nutrientName` and `unitName`
with the `.get` defaults. -/
def classify (n : FoodNutrient) : Option String :=
  let name := pyLower (n.nutrientName.getD "")
  let unit := pyLower (n.unitName.getD "")
  if pyIn "energy" name && pyIn "kcal" unit then some "calories"
  else if pyIn "protein" name then some "protein"
  else if pyIn "total lipid" name || pyIn "total fat" name then some "fat"
  else if pyIn "carbohydrate" name && pyIn "by difference" name then some "carbohydrates"
  else if pyIn "fiber" name && pyIn "total dietary" name then some "fiber"
  else if pyIn "sugars" name && pyIn "total" name then some "sugars"
  else if pyIn "fatty acids" name && pyIn "saturated" name then some "saturated_fat"
  else if pyIn "sodium" name then some "sodium"
  else none

/-- `extract_nutrients` (main.py lines 96-122), on the `foodNutrients` list of
the selected record (`usda_data.get("foodNutrients", [])` is the empty list
when the field is missing): each entry is pushed through the `elif` chain and,
when a branch matches, written into the dict under that branch's key. -/
def extract_nutrients (foodNutrients : List FoodNutrient) : List (String × ℚ) :=
  foodNutrients.foldl
    (fun acc n =>
      match classify n with
      | some k => alSet acc k (n.value.getD 0)
      | none => acc)
    []

/-- The per-key substring rule of the spec (section 4.3), one rule per fixed
key, with no priority between rules. -/
def matchesRule (k : String) (n : FoodNutrient) : Bool :=
  let name := pyLower (n.nutrientName.getD "")
  let unit := pyLower (n.unitName.getD "")
  if k = "calories" then pyIn "energy" name && pyIn "kcal" unit
  else if k = "protein" then pyIn "protein" name
  else if k = "fat" then pyIn "total lipid" name || pyIn "total fat" name
  else if k = "carbohydrates" then pyIn "carbohydrate" name && pyIn "by difference" name
  else if k = "fiber" then pyIn "fiber" name && pyIn "total dietary" name
  else if k = "sugars" then pyIn "sugars" name && pyIn "total" name
  else if k = "saturated_fat" then pyIn "fatty acids" name && pyIn "saturated" name
  else if k = "sodium" then pyIn "sodium" name
  else false

/-- One resolved meal item: the dict `nutrition_agent` appends to `meal_info`. -/
structure MealItem where
  food : Json
  amount : Json
  nutrients : List (String × ℚ)

/-- The zero-initialized totals dict of `calculate_meal_totals`. -/
def initTotals : List (String × ℚ) :=
  [("calories", 0), ("protein", 0), ("fat", 0), ("carbohydrates", 0),
   ("fiber", 0), ("sugars", 0), ("saturated_fat", 0), ("sodium", 0)]

/-- The inner loop `for key in totals: if key in nutrients: totals[key] += nutrients[key]`. -/
def addItemKeys (ks : List String) (nut : List (String × ℚ)) (t : List (String × ℚ)) :
    List (String × ℚ) :=
  ks.foldl
    (fun t k =>
      if (alLookup nut k).isSome then
        alSet t k ((alLookup t k).getD 0 + (alLookup nut k).getD 0)
      else t)
    t

/-- `calculate_meal_totals` (main.py lines 124-143). -/
def calculate_meal_totals (meal_info : List MealItem) : List (String × ℚ) :=
  meal_info.foldl (fun totals item => addItemKeys (alKeys totals) item.nutrients totals) initTotals

/-- The fixed fallback of `generate_analysis`. -/
def fallbackMsg : String := "Unable to generate nutrition analysis at this time."

/-- The instruction prompt of `generate_analysis` (main.py lines 148-178),
with the eight totals embedded in source order: calories, protein, fat,
saturated fat, carbohydrates, fiber, sugars, sodium. -/
def analysisPrompt (cal pro fa sat carb fib sug sod : ℚ) : String :=
  "\n    You are a professional nutritionist analyzing a meal. Use USDA Dietary Guidelines to evaluate:\n    - Calories: " ++
  toString cal ++ " kcal\n    - Protein: " ++ toString pro ++ "g\n    - Total Fat: " ++
  toString fa ++ "g (Saturated: " ++ toString sat ++ "g)\n    - Carbohydrates: " ++
  toString carb ++ "g\n    - Fiber: " ++ toString fib ++ "g\n    - Sugars: " ++
  toString sug ++ "g\n    - Sodium: " ++ toString sod ++
  "mg\n    \n    Provide a comprehensive analysis with:\n    1. Nutrition Score: X/10 (0-10 scale based on USDA guidelines)\n    2. Key Observations: Highlight strengths and weaknesses\n    3. Macronutrient Balance: Evaluate protein/fat/carb ratios\n    4. Micronutrient Note: Comment on vitamin/mineral content\n    5. Improvement Suggestions: Specific, actionable advice\n    6. Final Verdict: Overall assessment\n    \n    Structure your response with clear sections:\n    **Score: X/10**\n    **Breakdown:**\n    - [Key observations]\n    **Pros:**\n    - [Strengths]\n    **Cons:**\n    - [Weaknesses]\n    **Suggestions:**\n    - [Actionable advice]\n    **Verdict:**\n    - [Overall assessment]\n    "

/-- `generate_analysis` (main.py lines 145-185). The prompt is built before
the `try` block, with plain subscripts for calories, protein, fat,
carbohydrates and fiber — a totals dict missing one of those raises `KeyError`
to the caller — and `.get(..., 0)` defaults for saturated_fat, sugars and
sodium. Only the service call is guarded: its exception yields the fallback. -/
def generate_analysis (meal_totals : List (String × ℚ)) (llm : String → Option String) :
    Except PyErr String :=
  match alLookup meal_totals "calories", alLookup meal_totals "protein",
        alLookup meal_totals "fat", alLookup meal_totals "carbohydrates",
        alLookup meal_totals "fiber" with
  | some cal, some pro, some fa, some carb, some fib =>
    let prompt := analysisPrompt cal pro fa ((alLookup meal_totals "saturated_fat").getD 0)
      carb fib ((alLookup meal_totals "sugars").getD 0) ((alLookup meal_totals "sodium").getD 0)
    match llm prompt with
    | some s => .ok s
    | none => .ok fallbackMsg
  | _, _, _, _, _ => .error .keyError

/-- The two external collaborators of `nutrition_agent`: the text-generation
service at its two call sites (the parse call and the analysis call of the
single `llm` client), and the food-database HTTP outcome per queried name.
`none` from an llm field models `llm.invoke` raising. -/
structure Env where
  llm1 : String → Option String
  usda : Json → UsdaOutcome
  llm2 : String → Option String

/-- The terminal message of stage 1 (no foods identified). -/
def noFoodsMsg : String :=
  "❌ Could not identify any foods in your input. Please try again with more specific descriptions."

/-- The terminal message of stage 3 (no nutritional data found). -/
def noDataMsg : String :=
  "⚠️ No nutritional data found for the foods mentioned. Try different food names."

/-- One iteration of the lookup loop of `nutrition_agent` (main.py lines
200-219): read `food` and `amount` with `.get` (an `AttributeError` on
non-dict items), skip falsy food names, skip foods with no match, otherwise
build the meal item. -/
def resolveItem (usda : Json → UsdaOutcome) (item : Json) :
    Except PyErr (Option MealItem) :=
  match pyGet item "food" (Json.str "") with
  | .error e => .error e
  | .ok food =>
    match pyGet item "amount" (Json.str "") with
    | .error e => .error e
    | .ok amount =>
      if food.isTruthy = false then .ok none
      else
        match query_usda (usda food) with
        | none => .ok none
        | some best => .ok (some ⟨food, amount, extract_nutrients best.foodNutrients⟩)

/-- The lookup loop itself, accumulating `meal_info` in order; the first
exception aborts the loop, as in Python. -/
def buildLoop (usda : Json → UsdaOutcome) : List Json → List MealItem →
    Except PyErr (List MealItem)
  | [], acc => .ok acc
  | item :: rest, acc =>
    match resolveItem usda item with
    | .error e => .error e
    | .ok none => buildLoop usda rest acc
    | .ok (some m) => buildLoop usda rest (acc ++ [m])

/-- The lookup loop of `nutrition_agent`, started on the empty `meal_info`. -/
def buildMealInfo (usda : Json → UsdaOutcome) (items : List Json) :
    Except PyErr (List MealItem) :=
  buildLoop usda items []

/-- The pure value of one loop iteration on a dict item (no exception
possible): `none` when the item is skipped. -/
def pureResolve (usda : Json → UsdaOutcome) (it : Json) : Option MealItem :=
  match it with
  | .obj kvs =>
    let food := (alLookup kvs "food").getD (Json.str "")
    let amount := (alLookup kvs "amount").getD (Json.str "")
    if food.isTruthy = false then none
    else
      match query_usda (usda food) with
      | none => none
      | some best => some ⟨food, amount, extract_nutrients best.foodNutrients⟩
  | _ => none

/-- `nutrition_agent` (main.py lines 187-229): parse, short-circuit on a falsy
parse result, look up and resolve each item, short-circuit on an empty
`meal_info`, aggregate and generate the analysis. The `Except` layer carries
the exceptions Python would raise out of the function. -/
def nutrition_agent (env : Env) (user_input : String) : Except PyErr String :=
  let parsed := parse_food_amount env.llm1 user_input
  if parsed.isTruthy = false then .ok noFoodsMsg
  else
    match parsed.iterElems with
    | .error e => .error e
    | .ok items =>
      match buildMealInfo env.usda items with
      | .error e => .error e
      | .ok meal_info =>
        if meal_info.isEmpty then .ok noDataMsg
        else generate_analysis (calculate_meal_totals meal_info) env.llm2

theorem alLookup_isSome_iff {α : Type} (l : List (String × α)) (k : String) :
    (alLookup l k).isSome = true ↔ k ∈ alKeys l := by
  induction l with
  | nil => simp [alLookup, alKeys]
  | cons hd tl ih =>
    obtain ⟨k0, v0⟩ := hd
    by_cases h : k0 = k
    · subst h
      simp [alLookup, alKeys]
    · show (if k0 = k then some v0 else alLookup tl k).isSome = true ↔ k ∈ k0 :: alKeys tl
      rw [if_neg h]
      constructor
      · intro hs
        exact List.mem_cons_of_mem _ (ih.mp hs)
      · intro hs
        rcases List.mem_cons.mp hs with h1 | h1
        · exact absurd h1.symm h
        · exact ih.mpr h1

theorem alLookup_eq_none {α : Type} (l : List (String × α)) (k : String)
    (h : k ∉ alKeys l) : alLookup l k = none := by
  rcases ho : alLookup l k with _ | v
  · rfl
  · exact absurd ((alLookup_isSome_iff l k).mp (by simp [ho])) h

/-- Two dictionaries with the same duplicate-free key sequence and the same
lookups are equal. -/
theorem alExt {α : Type} (l1 l2 : List (String × α)) (hkeys : alKeys l1 = alKeys l2)
    (hnd : (alKeys l1).Nodup) (hlook : ∀ k, alLookup l1 k = alLookup l2 k) : l1 = l2 := by
  induction l1 generalizing l2 with
  | nil =>
    cases l2 with
    | nil => rfl
    | cons hd tl => simp [alKeys] at hkeys
  | cons hd tl ih =>
    obtain ⟨k0, v0⟩ := hd
    cases l2 with
    | nil => simp [alKeys] at hkeys
    | cons hd2 tl2 =>
      obtain ⟨k2, v2⟩ := hd2
      have hk02 : k0 = k2 ∧ alKeys tl = alKeys tl2 := by simpa [alKeys] using hkeys
      obtain ⟨hh, hktl⟩ := hk02
      subst hh
      have hv : v0 = v2 := by
        have := hlook k0
        simpa [alLookup] using this
      subst hv
      have hnd2 : k0 ∉ alKeys tl ∧ (alKeys tl).Nodup := by
        have : (k0 :: alKeys tl).Nodup := hnd
        exact List.nodup_cons.mp this
      have htl : tl = tl2 := by
        refine ih tl2 hktl hnd2.2 ?_
        intro k
        by_cases hk : k0 = k
        · subst hk
          rw [alLookup_eq_none tl k0 hnd2.1, alLookup_eq_none tl2 k0 (by rw [← hktl]; exact hnd2.1)]
        · have := hlook k
          simpa [alLookup, hk] using this
      rw [htl]

theorem addItemKeys_lookup (ks : List String) (nut t : List (String × ℚ)) (k : String)
    (hnd : ks.Nodup) :
    alLookup (addItemKeys ks nut t) k =
      if k ∈ ks ∧ (alLookup nut k).isSome = true then
        some ((alLookup t k).getD 0 + (alLookup nut k).getD 0)
      else alLookup t k := by
  induction ks generalizing t with
  | nil => simp [addItemKeys]
  | cons k0 ks ih =>
    simp only [List.nodup_cons] at hnd
    have hstep : addItemKeys (k0 :: ks) nut t =
        addItemKeys ks nut
          (if (alLookup nut k0).isSome = true then
            alSet t k0 ((alLookup t k0).getD 0 + (alLookup nut k0).getD 0)
          else t) := by
      simp [addItemKeys]
    rw [hstep, ih _ hnd.2]
    by_cases hk : k = k0
    · subst hk
      have hknotin : k ∉ ks := hnd.1
      by_cases hs : (alLookup nut k).isSome = true
      · simp [hknotin, hs, alLookup_alSet_self]
      · simp [hknotin, hs]
    · have hlt : alLookup
          (if (alLookup nut k0).isSome = true then
            alSet t k0 ((alLookup t k0).getD 0 + (alLookup nut k0).getD 0)
          else t) k = alLookup t k := by
        by_cases hs : (alLookup nut k0).isSome = true
        · rw [if_pos hs]
          exact alLookup_alSet_ne t k0 k _ (fun hh => hk hh.symm)
        · rw [if_neg hs]
      rw [hlt]
      simp [List.mem_cons, hk]

theorem addItemKeys_keys (ks : List String) (nut t : List (String × ℚ))
    (hsub : ∀ k ∈ ks, k ∈ alKeys t) : alKeys (addItemKeys ks nut t) = alKeys t := by
  induction ks generalizing t with
  | nil => simp [addItemKeys]
  | cons k0 ks ih =>
    have hstep : addItemKeys (k0 :: ks) nut t =
        addItemKeys ks nut
          (if (alLookup nut k0).isSome = true then
            alSet t k0 ((alLookup t k0).getD 0 + (alLookup nut k0).getD 0)
          else t) := by
      simp [addItemKeys]
    rw [hstep]
    by_cases hs : (alLookup nut k0).isSome = true
    · simp only [hs, if_true]
      have hk0 : alKeys (alSet t k0 ((alLookup t k0).getD 0 + (alLookup nut k0).getD 0)) =
          alKeys t := alKeys_alSet_mem t k0 _ (hsub k0 (by simp))
      rw [ih _ (by rw [hk0]; exact fun k hk => hsub k (by simp [hk])), hk0]
    · simp only [hs, if_false]
      exact ih _ (fun k hk => hsub k (by simp [hk]))

/-- The contribution of a key over an item list: the sum of its values,
an absent key contributing 0. -/
def nutSum (items : List MealItem) (k : String) : ℚ :=
  (items.map fun it => (alLookup it.nutrients k).getD 0).sum

theorem totals_fold_keys (items : List MealItem) (t : List (String × ℚ))
    (ht : alKeys t = keyOrder) :
    alKeys (items.foldl (fun tt it => addItemKeys (alKeys tt) it.nutrients tt) t) = keyOrder := by
  induction items generalizing t with
  | nil => simpa using ht
  | cons it items ih =>
    simp only [List.foldl_cons]
    exact ih _ (by rw [addItemKeys_keys _ _ _ (fun k hk => hk)]; exact ht)

theorem totals_fold_lookup (items : List MealItem) (t : List (String × ℚ))
    (ht : alKeys t = keyOrder) (k : String) :
    alLookup (items.foldl (fun tt it => addItemKeys (alKeys tt) it.nutrients tt) t) k =
      match alLookup t k with
      | some v => some (v + nutSum items k)
      | none => none := by
  induction items generalizing t with
  | nil =>
    rcases h : alLookup t k with _ | v <;> simp [nutSum, h]
  | cons it items ih =>
    simp only [List.foldl_cons]
    have hnd : (alKeys t).Nodup := by rw [ht]; decide
    have h1 := addItemKeys_lookup (alKeys t) it.nutrients t k hnd
    have hkeys1 : alKeys (addItemKeys (alKeys t) it.nutrients t) = keyOrder := by
      rw [addItemKeys_keys _ _ _ (fun k hk => hk)]; exact ht
    rw [ih _ hkeys1, h1]
    by_cases hmem : k ∈ alKeys t
    · rcases hv : alLookup t k with _ | v
      · exact absurd ((alLookup_isSome_iff t k).mpr hmem) (by simp [hv])
      · by_cases hs : (alLookup it.nutrients k).isSome = true
        · rcases hn : alLookup it.nutrients k with _ | nv
          · simp [hn] at hs
          · simp [hmem, hs, hv, hn, nutSum, add_assoc]
        · rcases hn : alLookup it.nutrients k with _ | nv
          · simp [hmem, hs, hv, hn, nutSum]
          · simp [hn] at hs
    · have hnone : alLookup t k = none := alLookup_eq_none t k hmem
      simp [hmem, hnone]

/-- The full shape of the totals: the eight fixed keys in chain order, each
mapped to its summed contribution. -/
theorem calculate_meal_totals_eq (items : List MealItem) :
    calculate_meal_totals items = keyOrder.map fun k => (k, nutSum items k) := by
  refine alExt _ _ ?_ ?_ ?_
  · rw [calculate_meal_totals, totals_fold_keys items initTotals (by decide)]
    simp [alKeys, keyOrder]
  · rw [calculate_meal_totals, totals_fold_keys items initTotals (by decide)]
    decide
  · intro k
    rw [calculate_meal_totals, totals_fold_lookup items initTotals (by decide) k]
    by_cases hmem : k ∈ keyOrder
    · have h0 : alLookup initTotals k = some 0 := by
        fin_cases hmem <;> rfl
      rw [h0]
      have hr : alLookup (keyOrder.map fun k => (k, nutSum items k)) k = some (nutSum items k) := by
        fin_cases hmem <;> simp [keyOrder, alLookup]
      rw [hr]
      simp
    · have h0 : alLookup initTotals k = none := by
        apply alLookup_eq_none
        simpa [initTotals, alKeys, keyOrder] using hmem
      have hr : alLookup (keyOrder.map fun k => (k, nutSum items k)) k = none := by
        apply alLookup_eq_none
        simpa [alKeys, keyOrder] using hmem
      rw [h0, hr]

/-- C2: `calculate_meal_totals` returns a mapping with exactly the eight fixed
keys; each key's value is the sum over all items of that key's value in the
item's nutrient mapping, an absent key contributing 0; and the empty item list
yields all eight keys mapped to 0. -/
theorem C2_totals_exact_keys_and_sums :
    ∀ items : List MealItem,
      alKeys (calculate_meal_totals items) = keyOrder ∧
      (∀ k, k ∈ keyOrder →
        alLookup (calculate_meal_totals items) k =
          some ((items.map fun it => (alLookup it.nutrients k).getD 0).sum)) ∧
      calculate_meal_totals [] = keyOrder.map fun k => (k, (0 : ℚ)) := by
  intro items
  refine ⟨?_, ?_, ?_⟩
  · rw [calculate_meal_totals_eq]
    simp [alKeys, keyOrder]
  · intro k hk
    rw [calculate_meal_totals_eq]
    fin_cases hk <;> rfl
  · rfl

/-- Witness for C2 at a concrete two-item meal. -/
theorem C2_totals_exact_keys_and_sums_witness :
    "calories" ∈ keyOrder ∧
    alLookup
      (calculate_meal_totals
        [⟨Json.str "apple", Json.str "1", [("calories", 52), ("junk", 3)]⟩,
         ⟨Json.str "rice", Json.str "1", [("calories", 10), ("sodium", 2)]⟩])
      "calories" = some 62 := by
  have h :=
    (C2_totals_exact_keys_and_sums
      [⟨Json.str "apple", Json.str "1", [("calories", 52), ("junk", 3)]⟩,
       ⟨Json.str "rice", Json.str "1", [("calories", 10), ("sodium", 2)]⟩]).2.1
      "calories" (by decide)
  refine ⟨by decide, ?_⟩
  rw [h]
  norm_num [alLookup]

/-- C6: aggregation is permutation-invariant — in the exact-rational model the
totals of any permutation of the item list are equal on the nose. -/
theorem C6_totals_perm_invariant :
    ∀ l1 l2 : List MealItem, l1.Perm l2 →
      calculate_meal_totals l1 = calculate_meal_totals l2 := by
  intro l1 l2 hp
  have hns : ∀ k, nutSum l1 k = nutSum l2 k := by
    intro k
    exact (hp.map fun it => (alLookup it.nutrients k).getD 0).sum_eq
  rw [calculate_meal_totals_eq, calculate_meal_totals_eq]
  simp only [hns]

/-- Witness for C6 at a concrete two-item swap. -/
theorem C6_totals_perm_invariant_witness :
    calculate_meal_totals
      [⟨Json.str "apple", Json.str "1", [("calories", 52)]⟩,
       ⟨Json.str "rice", Json.str "1", [("sodium", 2)]⟩] =
    calculate_meal_totals
      [⟨Json.str "rice", Json.str "1", [("sodium", 2)]⟩,
       ⟨Json.str "apple", Json.str "1", [("calories", 52)]⟩] :=
  C6_totals_perm_invariant _ _
    (List.Perm.swap (⟨Json.str "rice", Json.str "1", [("sodium", 2)]⟩ : MealItem)
      (⟨Json.str "apple", Json.str "1", [("calories", 52)]⟩ : MealItem) [])

theorem alMem_alSet {α : Type} (l : List (String × α)) (k k2 : String) (v : α)
    (h : k2 ∈ alKeys (alSet l k v)) : k2 ∈ alKeys l ∨ k2 = k := by
  induction l with
  | nil =>
    simp [alSet, alKeys] at h
    exact Or.inr h
  | cons hd tl ih =>
    obtain ⟨k0, v0⟩ := hd
    by_cases h0 : k0 = k
    · subst h0
      have hshape : alKeys (alSet ((k0, v0) :: tl) k0 v) = k0 :: alKeys tl := by
        simp [alSet, alKeys]
      rw [hshape] at h
      exact Or.inl h
    · have hshape : alKeys (alSet ((k0, v0) :: tl) k v) = k0 :: alKeys (alSet tl k v) := by
        simp [alSet, alKeys, h0]
      rw [hshape] at h
      rcases List.mem_cons.mp h with h2 | h2
      · exact Or.inl (h2 ▸ List.mem_cons_self k0 (alKeys tl))
      · rcases ih h2 with h3 | h3
        · exact Or.inl (List.mem_cons_of_mem _ h3)
        · exact Or.inr h3

/-- The `elif` chain only ever produces one of the eight fixed keys. -/
theorem classify_mem_keyOrder (e : FoodNutrient) (k : String) (h : classify e = some k) :
    k ∈ keyOrder := by
  simp only [classify] at h
  split_ifs at h <;>
    first
      | exact Option.noConfusion h
      | (injection h with hh; subst hh; decide)

theorem extract_nutrients_concat (l : List FoodNutrient) (e : FoodNutrient) :
    extract_nutrients (l ++ [e]) =
      match classify e with
      | some k => alSet (extract_nutrients l) k (e.value.getD 0)
      | none => extract_nutrients l := by
  rcases h : classify e with _ | k <;>
    simp [extract_nutrients, List.foldl_append, h]

/-- Lookup in the extracted dict: the value of the last entry the chain
assigned to that key. -/
theorem extract_nutrients_lookup (l : List FoodNutrient) (k : String) :
    alLookup (extract_nutrients l) k =
      ((l.filter fun e => decide (classify e = some k)).getLast?).map
        fun e => e.value.getD 0 := by
  induction l using List.reverseRecOn with
  | nil => rfl
  | append_singleton l e ih =>
    rw [extract_nutrients_concat]
    rcases hc : classify e with _ | k2
    · have hp : (decide (classify e = some k)) = false := by simp [hc]
      simp only [List.filter_append, List.filter_cons, List.filter_nil, hp]
      simpa using ih
    · by_cases hk : k2 = k
      · subst hk
        have hp : (decide (classify e = some k2)) = true := by simp [hc]
        simp only [List.filter_append, List.filter_cons, List.filter_nil, hp,
          if_true, alLookup_alSet_self]
        rw [List.getLast?_concat]
        rfl
      · have hp : (decide (classify e = some k)) = false := by simp [hc, hk]
        simp only [List.filter_append, List.filter_cons, List.filter_nil, hp]
        rw [alLookup_alSet_ne _ _ _ _ hk]
        simpa using ih

/-- The extracted keys stay inside the fixed eight-key set. -/
theorem extract_nutrients_keys_sub (l : List FoodNutrient) :
    ∀ k, k ∈ alKeys (extract_nutrients l) → k ∈ keyOrder := by
  induction l using List.reverseRecOn with
  | nil => intro k h; simp [extract_nutrients, alKeys] at h
  | append_singleton l e ih =>
    intro k h
    rw [extract_nutrients_concat] at h
    rcases hc : classify e with _ | k2
    · rw [hc] at h
      exact ih k h
    · rw [hc] at h
      rcases alMem_alSet _ _ _ _ h with h2 | h2
      · exact ih k h2
      · subst h2
        exact classify_mem_keyOrder e k hc

/-- C1 (counterexample): the claim reads each output key's value as the value
of the last entry whose name/unit satisfies that key's substring rule. The
entry named "Protein sodium" satisfies the sodium rule, is the last such
entry, and carries value 7, yet the chain assigns it to protein, so the
sodium key keeps the earlier value 5. -/
theorem C1_last_matching_counterexample :
    alLookup
      (extract_nutrients
        [⟨some "Sodium, Na", some 5, some "mg"⟩, ⟨some "Protein sodium", some 7, some "g"⟩])
      "sodium" = some 5 ∧
    ((([⟨some "Sodium, Na", some 5, some "mg"⟩,
        (⟨some "Protein sodium", some 7, some "g"⟩ : FoodNutrient)].filter
          fun e => matchesRule "sodium" e).getLast?).map fun e => e.value.getD 0) = some 7 ∧
    (5 : ℚ) ≠ 7 := by
  refine ⟨by decide, by decide, by norm_num⟩

/-- C1 (amended): output keys stay inside the fixed eight-key set, and each
present key's value is the value of the last entry the `elif` chain assigned
to that key — an entry whose name also satisfies an earlier rule in the chain
is assigned to the earlier key, not to this one. -/
theorem C1_extract_last_write_wins :
    (∀ (l : List FoodNutrient) (k : String),
      alLookup (extract_nutrients l) k =
        ((l.filter fun e => decide (classify e = some k)).getLast?).map
          fun e => e.value.getD 0) ∧
    (∀ (l : List FoodNutrient) (k : String),
      k ∈ alKeys (extract_nutrients l) → k ∈ keyOrder) :=
  ⟨extract_nutrients_lookup, extract_nutrients_keys_sub⟩

/-- Witness for C1 at a concrete record list. -/
theorem C1_extract_last_write_wins_witness :
    alLookup
      (extract_nutrients
        [⟨some "Energy", some 218, some "kJ"⟩, ⟨some "Energy", some 52, some "kcal"⟩,
         ⟨some "Sodium, Na", some 140, some "mg"⟩])
      "calories" =
      ((([⟨some "Energy", some 218, some "kJ"⟩, ⟨some "Energy", some 52, some "kcal"⟩,
          (⟨some "Sodium, Na", some 140, some "mg"⟩ : FoodNutrient)].filter
            fun e => decide (classify e = some "calories")).getLast?).map
        fun e => e.value.getD 0) ∧
    "calories" ∈ keyOrder := by
  constructor
  · exact C1_extract_last_write_wins.1 _ "calories"
  · exact C1_extract_last_write_wins.2
      [⟨some "Energy", some 218, some "kJ"⟩, ⟨some "Energy", some 52, some "kcal"⟩,
       ⟨some "Sodium, Na", some 140, some "mg"⟩] "calories" (by decide)

theorem matchesRule_eq_calories (n : FoodNutrient) :
    matchesRule "calories" n =
      (pyIn "energy" (pyLower (n.nutrientName.getD "")) &&
       pyIn "kcal" (pyLower (n.unitName.getD ""))) := rfl

theorem matchesRule_eq_protein (n : FoodNutrient) :
    matchesRule "protein" n = pyIn "protein" (pyLower (n.nutrientName.getD "")) := rfl

theorem matchesRule_eq_fat (n : FoodNutrient) :
    matchesRule "fat" n =
      (pyIn "total lipid" (pyLower (n.nutrientName.getD "")) ||
       pyIn "total fat" (pyLower (n.nutrientName.getD ""))) := rfl

theorem matchesRule_eq_carbohydrates (n : FoodNutrient) :
    matchesRule "carbohydrates" n =
      (pyIn "carbohydrate" (pyLower (n.nutrientName.getD "")) &&
       pyIn "by difference" (pyLower (n.nutrientName.getD ""))) := rfl

theorem matchesRule_eq_fiber (n : FoodNutrient) :
    matchesRule "fiber" n =
      (pyIn "fiber" (pyLower (n.nutrientName.getD "")) &&
       pyIn "total dietary" (pyLower (n.nutrientName.getD ""))) := rfl

theorem matchesRule_eq_sugars (n : FoodNutrient) :
    matchesRule "sugars" n =
      (pyIn "sugars" (pyLower (n.nutrientName.getD "")) &&
       pyIn "total" (pyLower (n.nutrientName.getD ""))) := rfl

theorem matchesRule_eq_saturated (n : FoodNutrient) :
    matchesRule "saturated_fat" n =
      (pyIn "fatty acids" (pyLower (n.nutrientName.getD "")) &&
       pyIn "saturated" (pyLower (n.nutrientName.getD ""))) := rfl

theorem matchesRule_eq_sodium (n : FoodNutrient) :
    matchesRule "sodium" n = pyIn "sodium" (pyLower (n.nutrientName.getD "")) := rfl

/-- C9: the chain assigns each entry to at most one key — the first key, in
the fixed order, whose per-key rule the entry satisfies — so an entry
matching several rules contributes only to the earliest one. -/
theorem C9_chain_first_match_only :
    ∀ n : FoodNutrient,
      classify n = keyOrder.find? (fun k => matchesRule k n) ∧
      alKeys (extract_nutrients [n]) = (classify n).toList := by
  intro n
  constructor
  · simp only [classify, keyOrder, List.find?, matchesRule_eq_calories,
      matchesRule_eq_protein, matchesRule_eq_fat, matchesRule_eq_carbohydrates,
      matchesRule_eq_fiber, matchesRule_eq_sugars, matchesRule_eq_saturated,
      matchesRule_eq_sodium]
    by_cases c1 : (pyIn "energy" (pyLower (n.nutrientName.getD "")) &&
        pyIn "kcal" (pyLower (n.unitName.getD ""))) = true
    · simp [c1]
    · by_cases c2 : pyIn "protein" (pyLower (n.nutrientName.getD "")) = true
      · simp [c1, c2]
      · by_cases c3 : (pyIn "total lipid" (pyLower (n.nutrientName.getD "")) ||
            pyIn "total fat" (pyLower (n.nutrientName.getD ""))) = true
        · simp [c1, c2, c3]
        · by_cases c4 : (pyIn "carbohydrate" (pyLower (n.nutrientName.getD "")) &&
              pyIn "by difference" (pyLower (n.nutrientName.getD ""))) = true
          · simp [c1, c2, c3, c4]
          · by_cases c5 : (pyIn "fiber" (pyLower (n.nutrientName.getD "")) &&
                pyIn "total dietary" (pyLower (n.nutrientName.getD ""))) = true
            · simp [c1, c2, c3, c4, c5]
            · by_cases c6 : (pyIn "sugars" (pyLower (n.nutrientName.getD "")) &&
                  pyIn "total" (pyLower (n.nutrientName.getD ""))) = true
              · simp [c1, c2, c3, c4, c5, c6]
              · by_cases c7 : (pyIn "fatty acids" (pyLower (n.nutrientName.getD "")) &&
                    pyIn "saturated" (pyLower (n.nutrientName.getD ""))) = true
                · simp [c1, c2, c3, c4, c5, c6, c7]
                · by_cases c8 : pyIn "sodium" (pyLower (n.nutrientName.getD "")) = true
                  · simp [c1, c2, c3, c4, c5, c6, c7, c8]
                  · simp [c1, c2, c3, c4, c5, c6, c7, c8]
  · rcases h : classify n with _ | k <;>
      simp [extract_nutrients, h, alSet, alKeys]

/-- Python's `max` keeps the first of several maxima: the returned candidate
occurs at an index where its score is maximal and every earlier index holds a
strictly smaller score. -/
theorem maxByScore_first_max (cs : List Candidate) (best : Candidate) :
    ∃ i : Nat, (best :: cs)[i]? = some (maxByScore best cs) ∧
      (∀ (j : Nat) (x : Candidate), (best :: cs)[j]? = some x → scoreOf x ≤ scoreOf (maxByScore best cs)) ∧
      (∀ (j : Nat) (x : Candidate), j < i → (best :: cs)[j]? = some x → scoreOf x < scoreOf (maxByScore best cs)) := by
  induction cs generalizing best with
  | nil =>
    refine ⟨0, by simp [maxByScore], ?_, ?_⟩
    · intro j x hj
      cases j with
      | zero =>
        simp at hj
        subst hj
        simp [maxByScore]
      | succ j => simp at hj
    · intro j x hlt
      exact absurd hlt (Nat.not_lt_zero j)
  | cons y ys ih =>
    by_cases hc : scoreOf best < scoreOf y
    · obtain ⟨i, hi, hmax, hstrict⟩ := ih y
      have hm : maxByScore best (y :: ys) = maxByScore y ys := by simp [maxByScore, hc]
      refine ⟨i + 1, ?_, ?_, ?_⟩
      · rw [hm]
        simpa using hi
      · intro j x hj
        rw [hm]
        cases j with
        | zero =>
          simp at hj
          subst hj
          exact le_of_lt (lt_of_lt_of_le hc (hmax 0 y (by simp)))
        | succ j => exact hmax j x (by simpa using hj)
      · intro j x hlt hj
        rw [hm]
        cases j with
        | zero =>
          simp at hj
          subst hj
          exact lt_of_lt_of_le hc (hmax 0 y (by simp))
        | succ j => exact hstrict j x (Nat.lt_of_succ_lt_succ hlt) (by simpa using hj)
    · obtain ⟨i, hi, hmax, hstrict⟩ := ih best
      have hm : maxByScore best (y :: ys) = maxByScore best ys := by simp [maxByScore, hc]
      have hyle : scoreOf y ≤ scoreOf best := le_of_not_lt hc
      cases i with
      | zero =>
        have hb : some best = some (maxByScore best ys) := by simpa using hi
        have hb2 : maxByScore best ys = best := (Option.some.injEq _ _ ▸ hb).symm
        refine ⟨0, ?_, ?_, ?_⟩
        · rw [hm, hb2]
          rfl
        · intro j x hj
          rw [hm]
          cases j with
          | zero =>
            simp at hj
            subst hj
            rw [hb2]
          | succ j =>
            cases j with
            | zero =>
              simp at hj
              subst hj
              rw [hb2]
              exact hyle
            | succ j => exact hmax (j + 1) x (by simpa using hj)
        · intro j x hlt
          exact absurd hlt (Nat.not_lt_zero j)
      | succ i2 =>
        refine ⟨i2 + 2, ?_, ?_, ?_⟩
        · rw [hm]
          simpa using hi
        · intro j x hj
          rw [hm]
          cases j with
          | zero =>
            simp at hj
            subst hj
            exact hmax 0 best (by simp)
          | succ j =>
            cases j with
            | zero =>
              simp at hj
              subst hj
              exact le_trans hyle (hmax 0 best (by simp))
            | succ j => exact hmax (j + 1) x (by simpa using hj)
        · intro j x hlt hj
          rw [hm]
          cases j with
          | zero =>
            simp at hj
            subst hj
            exact hstrict 0 best (Nat.succ_pos i2) (by simp)
          | succ j =>
            cases j with
            | zero =>
              simp at hj
              subst hj
              exact lt_of_le_of_lt hyle (hstrict 0 best (Nat.succ_pos i2) (by simp))
            | succ j =>
              exact hstrict (j + 1) x (by omega) (by simpa using hj)

/-- C3 (counterexample): the claim maps every non-2xx response to the empty
result, but `raise_for_status` raises only on 4xx/5xx, so a delivered 302
response whose body carries a foods list is ranked and returned. -/
theorem C3_non2xx_counterexample :
    ((302 : Nat) < 200 ∨ (299 : Nat) < 302) ∧
    query_usda (.resp 302 (some ⟨some [⟨"Redirected food", some 1, []⟩]⟩)) =
      some ⟨"Redirected food", some 1, []⟩ :=
  ⟨Or.inr (by norm_num), rfl⟩

/-- C3 (amended): `query_usda` never raises — network/timeout failure, a 4xx
or 5xx response (the statuses 400-599 that `raise_for_status` raises on), an
undecodable body, and a missing or empty foods list each yield the empty
result; any other delivered response (status below 400 or above 599) with a
non-empty foods list yields the candidate with the maximum score (a missing
score counting as 0), the first such candidate on a tie. -/
theorem C3_query_usda_failures_and_best_match :
    query_usda .netFail = none ∧
    (∀ st body, 400 ≤ st → st < 600 → query_usda (.resp st body) = none) ∧
    (∀ st, query_usda (.resp st none) = none) ∧
    (∀ st, query_usda (.resp st (some ⟨none⟩)) = none) ∧
    (∀ st, query_usda (.resp st (some ⟨some []⟩)) = none) ∧
    (∀ st c cs, st < 400 ∨ 600 ≤ st →
      ∃ r i, query_usda (.resp st (some ⟨some (c :: cs)⟩)) = some r ∧
        (c :: cs)[i]? = some r ∧
        (∀ (j : Nat) (x : Candidate), (c :: cs)[j]? = some x → scoreOf x ≤ scoreOf r) ∧
        (∀ (j : Nat) (x : Candidate), j < i → (c :: cs)[j]? = some x → scoreOf x < scoreOf r)) := by
  refine ⟨rfl, ?_, ?_, ?_, ?_, ?_⟩
  · intro st body hst1 hst2
    simp [query_usda, hst1, hst2]
  · intro st
    simp [query_usda]
  · intro st
    simp [query_usda]
  · intro st
    simp [query_usda]
  · intro st c cs hst
    have hn : ¬(400 ≤ st ∧ st < 600) := by
      rcases hst with h | h <;> omega
    obtain ⟨i, hi, hmax, hstrict⟩ := maxByScore_first_max cs c
    refine ⟨maxByScore c cs, i, ?_, hi, hmax, hstrict⟩
    simp [query_usda, hn]

/-- Witness for C3 at concrete responses: a 404 with a foods list still yields
the empty result, a delivered 999 with a foods list is ranked (it is outside
`raise_for_status`'s 400-599 range), and a 200 with three candidates yields
the first of the two top-scored ones. -/
theorem C3_query_usda_failures_and_best_match_witness :
    query_usda (.resp 404 (some ⟨some [⟨"x", some 3, []⟩]⟩)) = none ∧
    query_usda (.resp 999 (some ⟨some [⟨"y", some 2, []⟩]⟩)) = some ⟨"y", some 2, []⟩ ∧
    (∃ r i,
      query_usda (.resp 999 (some ⟨some [⟨"y", some 2, []⟩]⟩)) = some r ∧
      ([(⟨"y", some 2, []⟩ : Candidate)])[i]? = some r ∧
      (∀ (j : Nat) (x : Candidate), ([(⟨"y", some 2, []⟩ : Candidate)])[j]? = some x →
        scoreOf x ≤ scoreOf r) ∧
      (∀ (j : Nat) (x : Candidate), j < i → ([(⟨"y", some 2, []⟩ : Candidate)])[j]? = some x →
        scoreOf x < scoreOf r)) ∧
    query_usda
      (.resp 200 (some ⟨some [⟨"a", some 3, []⟩, ⟨"b", some 7, []⟩, ⟨"c", some 7, []⟩]⟩)) =
      some ⟨"b", some 7, []⟩ ∧
    (∃ r i,
      query_usda
        (.resp 200 (some ⟨some [⟨"a", some 3, []⟩, ⟨"b", some 7, []⟩, ⟨"c", some 7, []⟩]⟩)) =
        some r ∧
      ([⟨"a", some 3, []⟩, ⟨"b", some 7, []⟩, (⟨"c", some 7, []⟩ : Candidate)])[i]? = some r ∧
      (∀ (j : Nat) (x : Candidate), ([⟨"a", some 3, []⟩, ⟨"b", some 7, []⟩, (⟨"c", some 7, []⟩ : Candidate)])[j]? =
          some x → scoreOf x ≤ scoreOf r) ∧
      (∀ (j : Nat) (x : Candidate), j < i →
        ([⟨"a", some 3, []⟩, ⟨"b", some 7, []⟩, (⟨"c", some 7, []⟩ : Candidate)])[j]? =
          some x → scoreOf x < scoreOf r)) := by
  refine ⟨C3_query_usda_failures_and_best_match.2.1 404 _ (by norm_num) (by norm_num),
    rfl, ?_, rfl, ?_⟩
  · exact C3_query_usda_failures_and_best_match.2.2.2.2.2 999 _ _ (Or.inr (by norm_num))
  · exact C3_query_usda_failures_and_best_match.2.2.2.2.2 200 _ _ (Or.inl (by norm_num))

/-- C4 (counterexample): on a response whose only fenced block is tagged
`python` and contains a valid item array, the content of the first fenced
block parses to exactly that one item, but the code splits on plain fences
and keeps the tag word, so its JSON parse fails and it returns the empty
list — not the parsed content of the block. -/
theorem C4_first_block_counterexample :
    jsonParse
      (specFirstFencedBlockContent "```python\n[\x7b\"food\": \"egg\", \"amount\": \"2\"\x7d]\n```") =
      some (Json.arr [Json.obj [("food", Json.str "egg"), ("amount", Json.str "2")]]) ∧
    extractContent "```python\n[\x7b\"food\": \"egg\", \"amount\": \"2\"\x7d]\n```" =
      "python\n[\x7b\"food\": \"egg\", \"amount\": \"2\"\x7d]" ∧
    parse_food_amount
      (fun _ => some "```python\n[\x7b\"food\": \"egg\", \"amount\": \"2\"\x7d]\n```") "two eggs" =
      Json.arr [] ∧
    Json.arr [] ≠
      Json.arr [Json.obj [("food", Json.str "egg"), ("amount", Json.str "2")]] := by
  refine ⟨rfl, rfl, rfl, by simp⟩

/-- C4 (amended): if the response contains a ```json fence, the text after the
first such fence up to the next fence is extracted (preferring the json-tagged
block even when an untagged block precedes it); otherwise, if it contains any
fence, the text between the first two fences is extracted, which keeps a
non-json language tag; the extracted text is parsed as JSON, and a response
with no fence at all is parsed as raw text; in particular the ```json
round-trip yields exactly the one item with its two fields. -/
theorem C4_fenced_block_roundtrip :
    parse_food_amount
      (fun _ =>
        some "```json\n[\x7b\"food\":\"egg, whole, raw\",\"amount\":\"2 large (100 g)\"\x7d]\n```")
      "I had 2 scrambled eggs" =
      Json.arr
        [Json.obj [("food", Json.str "egg, whole, raw"),
                   ("amount", Json.str "2 large (100 g)")]] ∧
    extractContent "```\nnot json\n```\n```json\n[1]\n```" = "[1]" ∧
    extractContent "```python\n[1]\n```" = "python\n[1]" ∧
    (∀ (llm : String → Option String) (u content : String),
      llm (parsePrompt u) = some content → pyIn "```" content = false →
      parse_food_amount llm u = (jsonParse content).getD (Json.arr [])) := by
  refine ⟨rfl, rfl, rfl, ?_⟩
  intro llm u content hllm hfence
  have hnj : pyIn "```json" content = false := by
    rcases hpj : pyIn "```json" content with _ | _
    · rfl
    · have h1 : "```json".data <:+: content.data := by
        have := hpj
        unfold pyIn at this
        exact of_decide_eq_true this
      have h2 : "```".data <:+: "```json".data := by decide
      have h3 : "```".data <:+: content.data := h2.trans h1
      have : pyIn "```" content = true := by
        unfold pyIn
        exact decide_eq_true h3
      rw [this] at hfence
      exact Bool.noConfusion hfence
  have hext : extractContent content = content := by
    unfold extractContent
    rw [hnj, hfence]
    simp
  unfold parse_food_amount
  rw [hllm]
  show (match jsonParse (extractContent content) with
    | some v => v
    | none => Json.arr []) = (jsonParse content).getD (Json.arr [])
  rw [hext]
  rcases jsonParse content with _ | v <;> rfl

/-- Witness for C4's no-fence clause at a concrete fence-free response. -/
theorem C4_fenced_block_roundtrip_witness :
    pyIn "```" "[2]" = false ∧
    parse_food_amount (fun _ => some "[2]") "x" = (jsonParse "[2]").getD (Json.arr []) :=
  ⟨rfl, C4_fenced_block_roundtrip.2.2.2 (fun _ => some "[2]") "x" "[2]" rfl rfl⟩

/-- C5: `parse_food_amount` never propagates a failure — an exception from the
service call and a JSON-decode failure of the extracted text each produce the
empty list. In the embedding the function is total, so no other exception can
escape it. -/
theorem C5_parse_failure_yields_empty :
    (∀ (llm : String → Option String) (u : String),
      llm (parsePrompt u) = none → parse_food_amount llm u = Json.arr []) ∧
    (∀ (llm : String → Option String) (u content : String),
      llm (parsePrompt u) = some content → jsonParse (extractContent content) = none →
      parse_food_amount llm u = Json.arr []) := by
  constructor
  · intro llm u h
    unfold parse_food_amount
    rw [h]
  · intro llm u content h1 h2
    unfold parse_food_amount
    rw [h1]
    show (match jsonParse (extractContent content) with
      | some v => v
      | none => Json.arr []) = Json.arr []
    rw [h2]

/-- Witness for C5: a truncated JSON array from the service yields the empty
list, as does a raised service call. -/
theorem C5_parse_failure_yields_empty_witness :
    jsonParse (extractContent "[\x7b\"food\": \"egg\"") = none ∧
    parse_food_amount (fun _ => some "[\x7b\"food\": \"egg\"") "eggs" = Json.arr [] ∧
    parse_food_amount (fun _ => none) "eggs" = Json.arr [] :=
  ⟨rfl,
    C5_parse_failure_yields_empty.2 (fun _ => some "[\x7b\"food\": \"egg\"") "eggs" _ rfl rfl,
    C5_parse_failure_yields_empty.1 (fun _ => none) "eggs" rfl⟩

theorem resolveItem_obj (usda : Json → UsdaOutcome) (kvs : List (String × Json)) :
    resolveItem usda (Json.obj kvs) = .ok (pureResolve usda (Json.obj kvs)) := by
  unfold resolveItem pureResolve pyGet
  dsimp only
  by_cases hf : ((alLookup kvs "food").getD (Json.str "")).isTruthy = false
  · rw [if_pos hf, if_pos hf]
  · rw [if_neg hf, if_neg hf]
    rcases hq : query_usda (usda ((alLookup kvs "food").getD (Json.str ""))) with _ | best <;>
      rfl

/-- On a list of dict items the lookup loop never raises: it returns exactly
the items that resolve, in order, skipping the rest. -/
theorem buildLoop_all_obj (usda : Json → UsdaOutcome) (items : List Json)
    (acc : List MealItem) (h : items.all Json.isObj = true) :
    buildLoop usda items acc = .ok (acc ++ items.filterMap (pureResolve usda)) := by
  induction items generalizing acc with
  | nil => simp [buildLoop]
  | cons it rest ih =>
    simp only [List.all_cons, Bool.and_eq_true] at h
    obtain ⟨hobj, hrest⟩ := h
    obtain ⟨kvs, rfl⟩ : ∃ kvs, it = Json.obj kvs := by
      cases it <;> simp [Json.isObj] at hobj ⊢
    rw [buildLoop, resolveItem_obj]
    rcases hp : pureResolve usda (Json.obj kvs) with _ | m
    · dsimp only
      rw [ih acc hrest]
      simp [hp]
    · dsimp only
      rw [ih (acc ++ [m]) hrest]
      simp [hp]

/-- A truthy value that iterates does so over at least one element. -/
theorem iterElems_ne_nil (v : Json) (elems : List Json) (ht : v.isTruthy = true)
    (hi : v.iterElems = .ok elems) : elems ≠ [] := by
  intro hnil
  subst hnil
  cases v with
  | null => simp [Json.iterElems] at hi
  | bool b => simp [Json.iterElems] at hi
  | num q => simp [Json.iterElems] at hi
  | str s =>
    obtain ⟨data⟩ := s
    simp [Json.iterElems] at hi
    simp [Json.isTruthy] at ht
    subst hi
    exact ht rfl
  | arr l =>
    simp [Json.iterElems] at hi
    subst hi
    simp [Json.isTruthy] at ht
  | obj kvs =>
    simp [Json.iterElems] at hi
    subst hi
    simp [Json.isTruthy] at ht

theorem pyGet_nonobj (e : Json) (k : String) (d : Json) (h : e.isObj = false) :
    pyGet e k d = .error PyErr.attributeError := by
  cases e <;> simp [Json.isObj] at h <;> rfl

theorem resolveItem_nonobj (usda : Json → UsdaOutcome) (e : Json) (h : e.isObj = false) :
    resolveItem usda e = .error PyErr.attributeError := by
  unfold resolveItem
  rw [pyGet_nonobj e "food" (Json.str "") h]

theorem nutrition_agent_falsy (env : Env) (u : String)
    (h : (parse_food_amount env.llm1 u).isTruthy = false) :
    nutrition_agent env u = .ok noFoodsMsg := by
  simp only [nutrition_agent]
  rw [h, if_pos rfl]

theorem nutrition_agent_truthy (env : Env) (u : String)
    (h : (parse_food_amount env.llm1 u).isTruthy = true) :
    nutrition_agent env u =
      match (parse_food_amount env.llm1 u).iterElems with
      | .error e => .error e
      | .ok items =>
        match buildMealInfo env.usda items with
        | .error e => .error e
        | .ok meal_info =>
          if meal_info.isEmpty then .ok noDataMsg
          else generate_analysis (calculate_meal_totals meal_info) env.llm2 := by
  simp only [nutrition_agent]
  rw [h, if_neg (by decide : ¬(true = false))]

/-- C7: `nutrition_agent` short-circuits. An empty parse result returns the
no-foods message with a result independent of the lookup and analysis
collaborators (no lookup can influence it); on dict items the lookup loop
never raises and keeps exactly the resolving items, skipping an item whose
food name is falsy and an item whose lookup comes back empty; and when no
item resolves it returns the no-data message with a result independent of the
analysis collaborator. -/
theorem C7_orchestrator_short_circuits :
    (∀ (e1 e2 : Env) (u : String), e1.llm1 = e2.llm1 →
      parse_food_amount e1.llm1 u = Json.arr [] →
      nutrition_agent e1 u = .ok noFoodsMsg ∧ nutrition_agent e2 u = .ok noFoodsMsg) ∧
    (∀ (usda : Json → UsdaOutcome) (items : List Json), items.all Json.isObj = true →
      buildMealInfo usda items = .ok (items.filterMap (pureResolve usda))) ∧
    (∀ (usda : Json → UsdaOutcome) (kvs : List (String × Json)),
      ((alLookup kvs "food").getD (Json.str "")).isTruthy = false →
      pureResolve usda (Json.obj kvs) = none) ∧
    (∀ (usda : Json → UsdaOutcome) (kvs : List (String × Json)),
      query_usda (usda ((alLookup kvs "food").getD (Json.str ""))) = none →
      pureResolve usda (Json.obj kvs) = none) ∧
    (∀ (e1 e2 : Env) (u : String) (items : List Json),
      e1.llm1 = e2.llm1 → e1.usda = e2.usda →
      (parse_food_amount e1.llm1 u).isTruthy = true →
      (parse_food_amount e1.llm1 u).iterElems = .ok items →
      buildMealInfo e1.usda items = .ok [] →
      nutrition_agent e1 u = .ok noDataMsg ∧ nutrition_agent e2 u = .ok noDataMsg) := by
  refine ⟨?_, ?_, ?_, ?_, ?_⟩
  · intro e1 e2 u hllm hparse
    constructor
    · exact nutrition_agent_falsy e1 u (by rw [hparse]; rfl)
    · exact nutrition_agent_falsy e2 u (by rw [← hllm, hparse]; rfl)
  · intro usda items h
    unfold buildMealInfo
    rw [buildLoop_all_obj usda items [] h]
    simp
  · intro usda kvs h
    unfold pureResolve
    dsimp only
    rw [if_pos h]
  · intro usda kvs h
    unfold pureResolve
    dsimp only
    by_cases hf : ((alLookup kvs "food").getD (Json.str "")).isTruthy = false
    · rw [if_pos hf]
    · rw [if_neg hf, h]
  · intro e1 e2 u items hllm husda htr hiter hbuild
    constructor
    · rw [nutrition_agent_truthy e1 u htr, hiter]
      dsimp only
      rw [hbuild]
      rfl
    · have htr2 : (parse_food_amount e2.llm1 u).isTruthy = true := by rw [← hllm]; exact htr
      rw [nutrition_agent_truthy e2 u htr2]
      rw [← hllm, hiter]
      dsimp only
      rw [← husda, hbuild]
      rfl

/-- Witness for C7 at concrete environments: a failed parse, a three-item
parse where the empty-named and the unmatched items are skipped, and a run in
which nothing resolves. -/
theorem C7_orchestrator_short_circuits_witness :
    (nutrition_agent
      ⟨fun _ => some "nonsense", fun _ => .netFail, fun _ => none⟩ "meal" = .ok noFoodsMsg ∧
     nutrition_agent
      ⟨fun _ => some "nonsense",
       fun _ => .resp 200 (some ⟨some [⟨"Egg", some 10, []⟩]⟩),
       fun _ => some "ANALYSIS"⟩ "meal" = .ok noFoodsMsg) ∧
    buildMealInfo
      (fun j => match j with
        | .str "egg" =>
          .resp 200 (some ⟨some [⟨"Egg", some 10,
            [⟨some "Energy", some 52, some "kcal"⟩]⟩]⟩)
        | _ => .resp 200 (some ⟨some []⟩))
      [Json.obj [("food", Json.str "egg"), ("amount", Json.str "2")],
       Json.obj [("food", Json.str "")],
       Json.obj [("food", Json.str "zzz")]] =
      .ok ([Json.obj [("food", Json.str "egg"), ("amount", Json.str "2")],
            Json.obj [("food", Json.str "")],
            Json.obj [("food", Json.str "zzz")]].filterMap
        (pureResolve (fun j => match j with
          | .str "egg" =>
            .resp 200 (some ⟨some [⟨"Egg", some 10,
              [⟨some "Energy", some 52, some "kcal"⟩]⟩]⟩)
          | _ => .resp 200 (some ⟨some []⟩)))) ∧
    buildMealInfo
      (fun j => match j with
        | .str "egg" =>
          .resp 200 (some ⟨some [⟨"Egg", some 10,
            [⟨some "Energy", some 52, some "kcal"⟩]⟩]⟩)
        | _ => .resp 200 (some ⟨some []⟩))
      [Json.obj [("food", Json.str "egg"), ("amount", Json.str "2")],
       Json.obj [("food", Json.str "")],
       Json.obj [("food", Json.str "zzz")]] =
      .ok [⟨Json.str "egg", Json.str "2", [("calories", 52)]⟩] ∧
    (nutrition_agent
      ⟨fun _ => some "[\x7b\"food\": \"zzz\", \"amount\": \"1\"\x7d]",
       fun _ => .resp 200 (some ⟨some []⟩), fun _ => none⟩ "meal" = .ok noDataMsg ∧
     nutrition_agent
      ⟨fun _ => some "[\x7b\"food\": \"zzz\", \"amount\": \"1\"\x7d]",
       fun _ => .resp 200 (some ⟨some []⟩), fun _ => some "ANALYSIS"⟩ "meal" =
        .ok noDataMsg) := by
  refine ⟨?_, ?_, rfl, ?_⟩
  · exact C7_orchestrator_short_circuits.1
      ⟨fun _ => some "nonsense", fun _ => .netFail, fun _ => none⟩
      ⟨fun _ => some "nonsense",
       fun _ => .resp 200 (some ⟨some [⟨"Egg", some 10, []⟩]⟩),
       fun _ => some "ANALYSIS"⟩ "meal" rfl rfl
  · exact C7_orchestrator_short_circuits.2.1 _ _ rfl
  · exact C7_orchestrator_short_circuits.2.2.2.2
      ⟨fun _ => some "[\x7b\"food\": \"zzz\", \"amount\": \"1\"\x7d]",
       fun _ => .resp 200 (some ⟨some []⟩), fun _ => none⟩
      ⟨fun _ => some "[\x7b\"food\": \"zzz\", \"amount\": \"1\"\x7d]",
       fun _ => .resp 200 (some ⟨some []⟩), fun _ => some "ANALYSIS"⟩
      "meal" [Json.obj [("food", Json.str "zzz"), ("amount", Json.str "1")]]
      rfl rfl rfl rfl rfl

/-- C8: with the five mandatory totals present, `generate_analysis` builds the
single analysis prompt embedding all eight totals (saturated_fat, sugars and
sodium defaulting to 0 when absent), invokes the service once on it, returns
the response verbatim, and maps a service exception to the fixed fallback
string instead of propagating it. -/
theorem C8_generate_analysis_prompt_and_fallback :
    ∀ (t : List (String × ℚ)) (llm : String → Option String) (cal pro fa carb fib : ℚ),
      alLookup t "calories" = some cal → alLookup t "protein" = some pro →
      alLookup t "fat" = some fa → alLookup t "carbohydrates" = some carb →
      alLookup t "fiber" = some fib →
      (∀ s, llm (analysisPrompt cal pro fa ((alLookup t "saturated_fat").getD 0) carb fib
          ((alLookup t "sugars").getD 0) ((alLookup t "sodium").getD 0)) = some s →
        generate_analysis t llm = .ok s) ∧
      (llm (analysisPrompt cal pro fa ((alLookup t "saturated_fat").getD 0) carb fib
          ((alLookup t "sugars").getD 0) ((alLookup t "sodium").getD 0)) = none →
        generate_analysis t llm = .ok fallbackMsg) := by
  intro t llm cal pro fa carb fib h1 h2 h3 h4 h5
  constructor
  · intro s hs
    unfold generate_analysis
    rw [h1, h2, h3, h4, h5]
    dsimp only
    rw [hs]
  · intro hn
    unfold generate_analysis
    rw [h1, h2, h3, h4, h5]
    dsimp only
    rw [hn]

/-- Witness for C8 on the all-zero totals: a raised service call yields the
fallback string, a successful one is returned verbatim. -/
theorem C8_generate_analysis_prompt_and_fallback_witness :
    generate_analysis (calculate_meal_totals []) (fun _ => none) = .ok fallbackMsg ∧
    generate_analysis (calculate_meal_totals []) (fun _ => some "Score: 9/10") =
      .ok "Score: 9/10" := by
  constructor
  · exact (C8_generate_analysis_prompt_and_fallback (calculate_meal_totals [])
      (fun _ => none) 0 0 0 0 0 rfl rfl rfl rfl rfl).2 rfl
  · exact (C8_generate_analysis_prompt_and_fallback (calculate_meal_totals [])
      (fun _ => some "Score: 9/10") 0 0 0 0 0 rfl rfl rfl rfl rfl).1 "Score: 9/10" rfl

/-- C10: when parsing returns a truthy JSON value that iterates to elements
none of which is a dict — a non-empty string (iterating to its characters), an
array of strings or numbers — `nutrition_agent` propagates the AttributeError
raised at the `.get("food")` access on the first element instead of returning
one of its failure messages. -/
theorem C10_nonobject_items_raise :
    ∀ (env : Env) (u : String) (elems : List Json),
      (parse_food_amount env.llm1 u).isTruthy = true →
      (parse_food_amount env.llm1 u).iterElems = .ok elems →
      elems.all (fun e => !e.isObj) = true →
      nutrition_agent env u = .error PyErr.attributeError := by
  intro env u elems htr hiter hall
  have hne := iterElems_ne_nil _ _ htr hiter
  rcases elems with _ | ⟨e, rest⟩
  · exact absurd rfl hne
  · simp only [List.all_cons, Bool.and_eq_true] at hall
    have he : e.isObj = false := by
      have h1 := hall.1
      simpa using h1
    have hb : buildMealInfo env.usda (e :: rest) = .error PyErr.attributeError := by
      unfold buildMealInfo buildLoop
      rw [resolveItem_nonobj env.usda e he]
    rw [nutrition_agent_truthy env u htr, hiter]
    dsimp only
    rw [hb]

/-- Witness for C10: a parse result `[1, 2]` (truthy, elements are numbers)
makes the agent raise AttributeError. -/
theorem C10_nonobject_items_raise_witness :
    nutrition_agent ⟨fun _ => some "[1, 2]", fun _ => .netFail, fun _ => none⟩ "meal" =
      .error PyErr.attributeError :=
  C10_nonobject_items_raise
    ⟨fun _ => some "[1, 2]", fun _ => .netFail, fun _ => none⟩ "meal"
    [Json.num 1, Json.num 2] rfl rfl rfl

end MealPipeline
